import Mathlib

/-!
Verification of the vantage-bench team-coverage dashboard.

The definitions below are a shallow embedding of the TypeScript frontend
(`src/coverageiq`): the Zustand store operations (`store/index.ts`), the
effective-status computations (`TeamGrid.tsx`, `PersonCard.tsx`,
`SummaryBar` in part_008), the suggestion sorting in `SuggestionPanel`
(`SummaryBar.tsx` lines 317-319 / `SuggestionPanel.tsx` lines 190-192),
the `apiFetch` helper (`lib/api-client.ts`), and — where the backend
Python is not part of the sources — models built from the specification
(marked `Modelled from the spec:` in their doc comments).

Conventions: TypeScript string-union types become inductive types;
JS arrays become `List`; JS objects used as string-keyed maps become
functions `String → Option _`; the stable `Array.prototype.sort`
(ES2019 guarantees stability) becomes a stable insertion sort; dates
are day numbers (`Int`).
-/

namespace CoverageIQ

/-- `'available' | 'partial' | 'ooo'` from `lib/types.ts` (`DataSourceSignal.leaveStatus`).
The middle constructor is named `partialStatus` because its source name is a Lean keyword. -/
inductive LeaveStatus where
  | available
  | partialStatus
  | ooo
deriving DecidableEq, Repr

/-- `'at-risk' | 'unassigned' | 'covered'` from `lib/types.ts` (`TaskStatus`). -/
inductive TaskStatus where
  | atRisk
  | unassigned
  | covered
deriving DecidableEq, Repr

/-- `'P0' | 'P1' | 'P2'` from `lib/types.ts` (`Priority`). -/
inductive Priority where
  | P0
  | P1
  | P2
deriving DecidableEq, Repr

/-- `Suggestion` from `lib/types.ts`. -/
structure Suggestion where
  memberId : String
  skillMatchPct : Nat
  workloadPct : Nat
  contextReason : String
deriving DecidableEq, Repr

/-- `Task` from `lib/types.ts` (deadline as a day number). -/
structure Task where
  id : String
  title : String
  priority : Priority
  assigneeId : String
  deadline : Int
  projectName : String
  status : TaskStatus
  suggestions : List Suggestion
deriving DecidableEq, Repr

/-- `DataSourceSignal` from `lib/types.ts`. -/
structure DataSourceSignal where
  calendarPct : Nat
  taskLoadHours : Nat
  leaveStatus : LeaveStatus
deriving DecidableEq, Repr

/-- `TeamMember` from `lib/types.ts` (the fields the claims use). -/
structure TeamMember where
  id : String
  name : String
  role : String
  confidenceScore : Nat
  skills : List String
  dataSources : DataSourceSignal
  isOOO : Bool
deriving DecidableEq, Repr

/-- `ManualOverride` from `store/index.ts`. -/
structure ManualOverride where
  memberId : String
  status : LeaveStatus
deriving DecidableEq, Repr

/-- `setOverride` from `store/index.ts` lines 51-57:
`[...state.overrides.filter(o => o.memberId !== memberId), { memberId, status }]`. -/
def setOverride (overrides : List ManualOverride) (memberId : String)
    (status : LeaveStatus) : List ManualOverride :=
  overrides.filter (fun o => o.memberId ≠ memberId) ++ [⟨memberId, status⟩]

/-- `clearOverride` from `store/index.ts` lines 58-61:
`state.overrides.filter(o => o.memberId !== memberId)`. -/
def clearOverride (overrides : List ManualOverride) (memberId : String) :
    List ManualOverride :=
  overrides.filter (fun o => o.memberId ≠ memberId)

/-- `overrides.find(o => o.memberId === member.id)` as used by
`TeamGrid.tsx`, `PersonCard.tsx` and part_008's `SummaryBar`. -/
def findOverride (overrides : List ManualOverride) (memberId : String) :
    Option ManualOverride :=
  overrides.find? (fun o => o.memberId = memberId)

/-- `effectiveLeaveStatus` from `TeamGrid.tsx` lines 32-36: the override's
status when one exists, else the raw `dataSources.leaveStatus`. -/
def effectiveLeaveStatus (overrides : List ManualOverride) (member : TeamMember) :
    LeaveStatus :=
  match findOverride overrides member.id with
  | some o => o.status
  | none => member.dataSources.leaveStatus

/-- `effectiveStatus` from `PersonCard.tsx` lines 52-55:
`override?.status ?? (member.isOOO ? 'ooo' : member.dataSources.leaveStatus)`. -/
def effectiveStatusPersonCard (overrides : List ManualOverride)
    (member : TeamMember) : LeaveStatus :=
  match findOverride overrides member.id with
  | some o => o.status
  | none => if member.isOOO then .ooo else member.dataSources.leaveStatus

/-- `effectiveMemberStatus` from part_008's `SummaryBar` lines 37-40:
`override?.status ?? dbLeaveStatus`. -/
def effectiveMemberStatus (overrides : List ManualOverride) (memberId : String)
    (dbLeaveStatus : LeaveStatus) : LeaveStatus :=
  match findOverride overrides memberId with
  | some o => o.status
  | none => dbLeaveStatus

/-- `taskStatusOverrides` updates from `store/index.ts` lines 64-67:
`{ ...state.taskStatusOverrides, [taskId]: status }`. -/
def setTaskStatus (overrides : String → Option TaskStatus) (taskId : String)
    (status : TaskStatus) : String → Option TaskStatus :=
  fun k => if k = taskId then some status else overrides k

/-- `effectiveTaskStatus` from part_008's `SummaryBar` lines 43-45:
`taskStatusOverrides[taskId] ?? dbStatus`. -/
def effectiveTaskStatus (overrides : String → Option TaskStatus) (taskId : String)
    (dbStatus : TaskStatus) : TaskStatus :=
  (overrides taskId).getD dbStatus

/-- One insertion step of a stable descending sort on `skillMatchPct`:
the new element goes in front of the first element whose key is ≤ its own,
so earlier input elements stay ahead of later equal-keyed ones. -/
def insertDesc (s : Suggestion) : List Suggestion → List Suggestion
  | [] => [s]
  | t :: ts =>
    if t.skillMatchPct ≤ s.skillMatchPct then s :: t :: ts
    else t :: insertDesc s ts

/-- `sortedSuggestions` from `SummaryBar.tsx` lines 317-319 (same code in
`SuggestionPanel.tsx` lines 190-192):
`[...task.suggestions].sort((a, b) => b.skillMatchPct - a.skillMatchPct)`.
`Array.prototype.sort` is stable (ES2019) and the comparator looks only at
`skillMatchPct`, so this is a stable sort descending on that single key. -/
def sortedSuggestions (l : List Suggestion) : List Suggestion :=
  match l with
  | [] => []
  | s :: ss => insertDesc s (sortedSuggestions ss)

/-- The ordering the spec claims for the ranked list (spec §4.3 step 3,
stated for comparison with the code): `a` strictly precedes `b` when it has
higher skill match, or equal skill match and lower workload, or both equal
and smaller id. -/
def specRankBefore (a b : Suggestion) : Prop :=
  b.skillMatchPct < a.skillMatchPct ∨
    (a.skillMatchPct = b.skillMatchPct ∧
      (a.workloadPct < b.workloadPct ∨
        (a.workloadPct = b.workloadPct ∧ a.memberId < b.memberId)))

/-- The five counters computed by part_008's `SummaryBar` (lines 50-54).
`partialCount` and `unresolved` are `partial` / `unresolved` in the source. -/
structure SummaryCounts where
  ooo : Nat
  partialCount : Nat
  fullyAvailable : Nat
  criticalAtRisk : Nat
  unresolved : Nat
deriving DecidableEq, Repr

/-- The `SummaryBar` computation from part_008 lines 50-54: each member is
counted by its effective status, each task by priority and effective status. -/
def summaryCounts (members : List TeamMember) (tasks : List Task)
    (overrides : List ManualOverride)
    (taskStatusOverrides : String → Option TaskStatus) : SummaryCounts :=
  let eff := fun (m : TeamMember) =>
    effectiveMemberStatus overrides m.id m.dataSources.leaveStatus
  let effT := fun (t : Task) => effectiveTaskStatus taskStatusOverrides t.id t.status
  { ooo := (members.filter (fun m => eff m == .ooo)).length
    partialCount := (members.filter (fun m => eff m == .partialStatus)).length
    fullyAvailable := (members.filter (fun m => eff m == .available)).length
    criticalAtRisk := (tasks.filter (fun t =>
      (t.priority == .P0 || t.priority == .P1) && effT t != .covered)).length
    unresolved := (tasks.filter (fun t => effT t != .covered)).length }

/-- A fetch `Response` as `apiFetch` in `lib/api-client.ts` observes it:
`ok`, `status`, `statusText`, the text body, and the parsed JSON body
(abstracted as a value of type `α`). -/
structure ApiResponse (α : Type) where
  ok : Bool
  status : Nat
  statusText : String
  bodyText : String
  json : α
deriving Repr

/-- `apiFetch` from `lib/api-client.ts` lines 16-31: throw on `!res.ok`
with the status in the message, return `undefined` (here `none`) on 204,
else the parsed JSON body. -/
def apiFetch {α : Type} (res : ApiResponse α) : Except String (Option α) :=
  if !res.ok then
    .error ("API " ++ toString res.status ++ " " ++ res.statusText ++ ": "
      ++ res.bodyText)
  else if res.status = 204 then .ok none
  else .ok (some res.json)

/-- What the `SuggestionPanel` body (`SummaryBar.tsx` lines 321-428) renders
once a task is selected and loaded: which blocks are present. There is no
error branch anywhere in that component, hence `showsErrorState`. -/
structure PanelRender where
  showsRunningBanner : Bool
  showsSuggestionList : Bool
  showsScoringPlaceholder : Bool
  showsCoveredPanel : Bool
  showsErrorState : Bool
deriving DecidableEq, Repr

/-- The three top-level outcomes of `SuggestionPanel` (`SummaryBar.tsx`
lines 232-430): the no-selection placeholder (lines 257-272), the
task-not-loaded spinner (lines 275-281), or the rendered panel. -/
inductive PanelView where
  | noSelection
  | loadingTask
  | render (r : PanelRender)
deriving DecidableEq, Repr

/-- The render logic of `SuggestionPanel` in `SummaryBar.tsx`:
`currentStatus = taskStatusOverrides[selectedTaskId] ?? task.status` (283),
`isCovered` (284), `isRunning` (285), running banner at 366-380, the
`!isCovered && !isRunning` block at 383-417 showing the sorted list when
non-empty and the scoring placeholder (with a refresh button) when empty,
and the covered panel at 419-427. -/
def suggestionPanelView (selectedTaskId : Option String) (tasks : List Task)
    (taskStatusOverrides : String → Option TaskStatus)
    (pipelineRunning : String → Bool) : PanelView :=
  match selectedTaskId with
  | none => .noSelection
  | some tid =>
    match tasks.find? (fun t => t.id = tid) with
    | none => .loadingTask
    | some task =>
      let currentStatus := effectiveTaskStatus taskStatusOverrides tid task.status
      let isCovered := currentStatus == .covered
      let isRunning := pipelineRunning tid
      let sorted := sortedSuggestions task.suggestions
      .render
        { showsRunningBanner := isRunning
          showsSuggestionList := !isCovered && !isRunning && !sorted.isEmpty
          showsScoringPlaceholder := !isCovered && !isRunning && sorted.isEmpty
          showsCoveredPanel := isCovered
          showsErrorState := false }

/-- A rendered block offers a retry affordance when it is the running banner
(Refresh button, `SummaryBar.tsx` 372-378) or the scoring placeholder
(Refresh-suggestions button, lines 407-413). -/
def hasRetryAffordance (r : PanelRender) : Bool :=
  r.showsRunningBanner || r.showsScoringPlaceholder

/-- A rendered block displays scoring-in-progress text when it is the running
banner (371: scoring candidates) or the scoring placeholder (401-405). -/
def showsScoringText (r : PanelRender) : Bool :=
  r.showsRunningBanner || r.showsScoringPlaceholder

/-- Modelled from the spec: the backend `PATCH /tasks/id/reassign` route is
not under src (only its caller `reassignTask` in `api-client.ts` lines
150-156 and the optimistic `handleReassign` in `SummaryBar.tsx` 287-295
are). Spec §4.3 re-invocation: reassigning a task to a specific member
directly sets `status = covered`, `assigneeId = member`, and clears
suggestions. -/
def reassignTaskBackend (t : Task) (memberId : String) : Task :=
  { t with status := .covered, assigneeId := memberId, suggestions := [] }

/-- The scoring oracle output contract from spec §4.3 step 2. -/
structure Score where
  skillMatchPct : Nat
  workloadPct : Nat
  rationale : String
deriving DecidableEq, Repr

/-- The spec's full ranking key (§4.3 step 3) as a Boolean: `s` may sit
before `t` when it has strictly higher skill match, or equal skill match
and strictly lower workload, or both equal and id ≤. -/
def specRankLeB (s t : Suggestion) : Bool :=
  decide (t.skillMatchPct < s.skillMatchPct) ||
    (s.skillMatchPct == t.skillMatchPct &&
      (decide (s.workloadPct < t.workloadPct) ||
        (s.workloadPct == t.workloadPct && decide (s.memberId ≤ t.memberId))))

/-- Insertion step for the spec-modelled ranking sort. -/
def rankInsert (s : Suggestion) : List Suggestion → List Suggestion
  | [] => [s]
  | t :: ts => if specRankLeB s t then s :: t :: ts else t :: rankInsert s ts

/-- Modelled from the spec: the ranking step of the Suggestion Engine
(spec §4.3 step 3; the backend `score_skills.py` / `crud.py` is not under
src): sort descending by `skillMatchPct`, ties by ascending `workloadPct`,
then by candidate id. -/
def rankSuggestions (l : List Suggestion) : List Suggestion :=
  match l with
  | [] => []
  | s :: ss => rankInsert s (rankSuggestions ss)

/-- Modelled from the spec: the Suggestion Engine `suggest(task, roster)`
(spec §4.3; the backend scoring pipeline is not under src). Step 1 filters
the roster to candidates whose effective status is not `ooo`; step 2 scores
each remaining candidate with the LLM oracle (a function parameter here);
step 3 ranks. The task only feeds the oracle, so the oracle parameter
already closes over it. -/
def suggest (roster : List TeamMember) (overrides : List ManualOverride)
    (oracle : TeamMember → Score) : List Suggestion :=
  rankSuggestions
    (((roster.filter (fun m => effectiveLeaveStatus overrides m != .ooo)).map
      (fun m =>
        { memberId := m.id
          skillMatchPct := (oracle m).skillMatchPct
          workloadPct := (oracle m).workloadPct
          contextReason := (oracle m).rationale })))

/-- A raw chat/email message as the ingestor sees it. -/
structure Message where
  text : String
  sender : String
deriving DecidableEq, Repr

/-- `TimeOffSignal` (spec §3): extracted person name, date range (day
numbers), reason. -/
structure TimeOffSignal where
  personName : String
  startDate : Int
  endDate : Int
  reason : String
deriving DecidableEq, Repr

/-- What the ingestor needs to know about a matched roster member
(spec §4.2 steps 4-6). -/
structure RosterEntry where
  id : String
  manuallyOverridden : Bool
deriving DecidableEq, Repr

/-- `SyncResult` counters (spec §4.2 and `TimeOffSyncResult` consumed in
`app/week-ahead/page.tsx` lines 580-586), with the applied member ids as
`changes`. -/
structure SyncResult where
  detected : Nat
  applied : Nat
  pending : Nat
  skipped : Nat
  changes : List String
deriving DecidableEq, Repr

/-- The zero `SyncResult` the ingestor starts from. -/
def emptySyncResult : SyncResult :=
  { detected := 0, applied := 0, pending := 0, skipped := 0, changes := [] }

/-- Modelled from the spec: one message through the Time-Off Signal
Ingestor pipeline (spec §4.2; the backend `slack_parser.py` / gmail scan is
not under src). `none` covers pre-filtered, not-time-off, and failed-LLM
messages (fail-open, §4.2 failure semantics). A detected signal is skipped
when unmatched, override-blocked, or stale; otherwise it is applied, and
additionally counted pending when its start is in the future. -/
def ingestOne (matcher : String → Option RosterEntry) (today : Int)
    (acc : SyncResult) (sig : Option TimeOffSignal) : SyncResult :=
  match sig with
  | none => acc
  | some s =>
    let acc1 := { acc with detected := acc.detected + 1 }
    match matcher s.personName with
    | none => { acc1 with skipped := acc1.skipped + 1 }
    | some member =>
      if member.manuallyOverridden then
        { acc1 with skipped := acc1.skipped + 1 }
      else if s.endDate < today then
        { acc1 with skipped := acc1.skipped + 1 }
      else if s.startDate ≤ today then
        { acc1 with applied := acc1.applied + 1,
                    changes := acc1.changes ++ [member.id] }
      else
        { acc1 with applied := acc1.applied + 1, pending := acc1.pending + 1,
                    changes := acc1.changes ++ [member.id] }

/-- Modelled from the spec: `ingest(messages) -> SyncResult` (spec §4.2;
backend not under src). The classifier (LLM oracle plus pre-filter) and the
fuzzy matcher are function parameters; the whole pipeline is a total fold,
so no input can make it throw. -/
def ingest (classify : Message → Option TimeOffSignal)
    (matcher : String → Option RosterEntry) (today : Int)
    (msgs : List Message) : SyncResult :=
  msgs.foldl (fun acc m => ingestOne matcher today acc (classify m))
    emptySyncResult

/-- The two operations the store exposes on `overrides`
(`store/index.ts` lines 24-25). -/
inductive StoreOp where
  | setO (memberId : String) (status : LeaveStatus)
  | clearO (memberId : String)
deriving DecidableEq, Repr

/-- Run one store operation on the `overrides` state. -/
def applyOp (l : List ManualOverride) : StoreOp → List ManualOverride
  | .setO mid st => setOverride l mid st
  | .clearO mid => clearOverride l mid

/-- Run a sequence of store operations from the initial state
`overrides: []` (`store/index.ts` line 50). -/
def applyOps (ops : List StoreOp) : List ManualOverride :=
  ops.foldl applyOp []

/-- All entries of the `overrides` list belonging to one member. -/
def entriesFor (l : List ManualOverride) (mid : String) : List ManualOverride :=
  l.filter (fun o => o.memberId = mid)

/-! Concrete fixtures used by witnesses and counterexamples. -/

/-- A data-source signal with an `ooo` raw leave status. -/
def sigOOO : DataSourceSignal :=
  { calendarPct := 50, taskLoadHours := 10, leaveStatus := .ooo }

/-- A data-source signal with an `available` raw leave status. -/
def sigAvailable : DataSourceSignal :=
  { calendarPct := 80, taskLoadHours := 5, leaveStatus := .available }

/-- A member whose raw leave status is `ooo` (as `mem-002` in the spec's
override scenario). -/
def memRawOOO : TeamMember :=
  { id := "mem-002", name := "B", role := "Eng", confidenceScore := 70
    skills := ["go"], dataSources := sigOOO, isOOO := true }

/-- A member whose raw leave status is `available`. -/
def memRawAvailable : TeamMember :=
  { id := "mem-001", name := "A", role := "Eng", confidenceScore := 80
    skills := ["ts"], dataSources := sigAvailable, isOOO := false }

/-- A second available member, to make a three-person roster. -/
def memRawAvailable2 : TeamMember :=
  { id := "mem-003", name := "C", role := "Design", confidenceScore := 60
    skills := ["figma"], dataSources := sigAvailable, isOOO := false }

/-- An unassigned task with an empty suggestion list. -/
def taskNoSuggestions : Task :=
  { id := "t-1", title := "Fix auth", priority := .P0, assigneeId := ""
    deadline := 10, projectName := "Atlas", status := .unassigned
    suggestions := [] }

/-- A stub classifier: the literal text PTO is a time-off announcement for
an unknown person named Zed, anything else is not time off. -/
def classifyStub : Message → Option TimeOffSignal :=
  fun msg => if msg.text = "PTO" then some ⟨"Zed", 5, 6, "vacation"⟩ else none

/-- A matcher that recognises nobody. -/
def matcherNone : String → Option RosterEntry := fun _ => none

/-- A stub scoring oracle keyed on the candidate's confidence score. -/
def oracleStub : TeamMember → Score := fun m => ⟨m.confidenceScore, 50, "stub"⟩

/-- The invariant the ingestor counters maintain (spec §4.2 counts):
every detected signal is either applied or skipped, and pending signals
are a subset of the applied ones. -/
def SyncInv (r : SyncResult) : Prop :=
  r.detected = r.applied + r.skipped ∧ r.pending ≤ r.applied

/-! Helper lemmas about the store operations. -/

/-- After `clearOverride`, no entry for that member can be found. -/
theorem findOverride_clearOverride_self (l : List ManualOverride)
    (mid : String) : findOverride (clearOverride l mid) mid = none := by
  rw [findOverride, List.find?_eq_none]
  intro x hx
  simp only [clearOverride, List.mem_filter, decide_eq_true_eq] at hx
  simp [hx.2]

/-- `setOverride` makes its entry the one found for that member. -/
theorem findOverride_setOverride_self (l : List ManualOverride) (mid : String)
    (st : LeaveStatus) :
    findOverride (setOverride l mid st) mid = some ⟨mid, st⟩ := by
  rw [findOverride, setOverride, List.find?_append]
  have h : (List.filter (fun o => o.memberId ≠ mid) l).find?
      (fun o => o.memberId = mid) = none := by
    rw [List.find?_eq_none]
    intro x hx
    simp only [List.mem_filter, decide_eq_true_eq] at hx
    simp [hx.2]
  simp [h, List.find?]

/-- The entries of an untouched member survive `setOverride` unchanged. -/
theorem entriesFor_setOverride_other (l : List ManualOverride)
    (mid mid' : String) (st : LeaveStatus) (h : mid' ≠ mid) :
    entriesFor (setOverride l mid st) mid' = entriesFor l mid' := by
  rw [entriesFor, setOverride, List.filter_append]
  have hsing : List.filter (fun o => o.memberId = mid')
      [(⟨mid, st⟩ : ManualOverride)] = [] := by
    simp [List.filter, Ne.symm h]
  rw [hsing, List.append_nil, entriesFor, List.filter_filter]
  apply List.filter_congr
  intro a _
  by_cases ha' : a.memberId = mid'
  · have hne : a.memberId ≠ mid := by rw [ha']; exact h
    simp [ha', hne, h]
  · simp [ha']

/-- The entries of an untouched member survive `clearOverride` unchanged. -/
theorem entriesFor_clearOverride_other (l : List ManualOverride)
    (mid mid' : String) (h : mid' ≠ mid) :
    entriesFor (clearOverride l mid) mid' = entriesFor l mid' := by
  rw [entriesFor, clearOverride, entriesFor, List.filter_filter]
  apply List.filter_congr
  intro a _
  by_cases ha' : a.memberId = mid'
  · have hne : a.memberId ≠ mid := by rw [ha']; exact h
    simp [ha', hne, h]
  · simp [ha']

/-- `setOverride` leaves exactly one entry for the written member. -/
theorem entriesFor_setOverride_self (l : List ManualOverride) (mid : String)
    (st : LeaveStatus) :
    entriesFor (setOverride l mid st) mid = [⟨mid, st⟩] := by
  rw [entriesFor, setOverride, List.filter_append]
  have h1 : List.filter (fun o => o.memberId = mid)
      (List.filter (fun o => o.memberId ≠ mid) l) = [] := by
    rw [List.filter_filter, List.filter_eq_nil_iff]
    intro a _
    by_cases ha : a.memberId = mid <;> simp [ha]
  rw [h1]
  simp [List.filter]

/-- `clearOverride` leaves no entry for the cleared member. -/
theorem entriesFor_clearOverride_self (l : List ManualOverride)
    (mid : String) : entriesFor (clearOverride l mid) mid = [] := by
  rw [entriesFor, clearOverride, List.filter_filter, List.filter_eq_nil_iff]
  intro a _
  by_cases ha : a.memberId = mid <;> simp [ha]

/-- Every override state reachable from the empty initial state keeps at
most one entry per member. -/
theorem entriesFor_applyOps_le_one (ops : List StoreOp) (mid : String) :
    (entriesFor (applyOps ops) mid).length ≤ 1 := by
  suffices h : ∀ (l : List ManualOverride),
      (∀ m, (entriesFor l m).length ≤ 1) →
      ∀ m, (entriesFor (ops.foldl applyOp l) m).length ≤ 1 by
    exact h [] (fun m => by simp [entriesFor]) mid
  induction ops with
  | nil => intro l hl m; simpa using hl m
  | cons op ops ih =>
    intro l hl m
    rw [List.foldl_cons]
    refine ih (applyOp l op) (fun m' => ?_) m
    cases op with
    | setO omid ost =>
      by_cases h : m' = omid
      · subst h; rw [applyOp, entriesFor_setOverride_self]; simp
      · rw [applyOp, entriesFor_setOverride_other l omid m' ost h]; exact hl m'
    | clearO omid =>
      by_cases h : m' = omid
      · subst h; rw [applyOp, entriesFor_clearOverride_self]; simp
      · rw [applyOp, entriesFor_clearOverride_other l omid m' h]; exact hl m'

/-- C2: while a manual override entry for a member is in effect, the
member's effective status equals the overridden status, no matter what the
raw `leaveStatus` / `isOOO` fields say and no matter how a calendar/chat
sync rewrites the member's `dataSources` — in both the `TeamGrid` and the
`PersonCard` computations. Only removing the entry (`clearOverride`) can
change this, since the computations consult the override first. -/
theorem c2_override_precedence (overrides : List ManualOverride)
    (m : TeamMember) (o : ManualOverride)
    (h : findOverride overrides m.id = some o) :
    effectiveLeaveStatus overrides m = o.status ∧
    (∀ signal : DataSourceSignal,
      effectiveLeaveStatus overrides { m with dataSources := signal }
        = o.status) ∧
    (∀ (b : Bool) (signal : DataSourceSignal),
      effectiveStatusPersonCard overrides
        { m with dataSources := signal, isOOO := b } = o.status) := by
  refine ⟨?_, fun signal => ?_, fun b signal => ?_⟩
  · rw [effectiveLeaveStatus, h]
  · rw [effectiveLeaveStatus]
    have : ({ m with dataSources := signal } : TeamMember).id = m.id := rfl
    rw [this, h]
  · rw [effectiveStatusPersonCard]
    have : ({ m with dataSources := signal, isOOO := b } : TeamMember).id
        = m.id := rfl
    rw [this, h]

/-- Witness for C2 at a concrete member overridden to `available` whose raw
status is `ooo`. -/
theorem c2_override_precedence_witness :
    effectiveLeaveStatus [⟨"mem-002", .available⟩] memRawOOO = .available ∧
    effectiveLeaveStatus [⟨"mem-002", .available⟩]
      { memRawOOO with dataSources := sigOOO } = .available ∧
    effectiveStatusPersonCard [⟨"mem-002", .available⟩]
      { memRawOOO with dataSources := sigOOO, isOOO := true } = .available :=
  have h := c2_override_precedence [⟨"mem-002", .available⟩] memRawOOO
    ⟨"mem-002", .available⟩ (by rfl)
  ⟨h.1, h.2.1 sigOOO, h.2.2 true sigOOO⟩

/-- C8: the store keeps at most one override entry per member after any
sequence of operations from the initial empty state; `setOverride` leaves
exactly the new entry for the written member and every other member's
entries untouched; `clearOverride` removes exactly the cleared member's
entries and no others. -/
theorem c8_overrides_unique :
    (∀ (ops : List StoreOp) (mid : String),
      (entriesFor (applyOps ops) mid).length ≤ 1) ∧
    (∀ (l : List ManualOverride) (mid : String) (st : LeaveStatus),
      entriesFor (setOverride l mid st) mid = [⟨mid, st⟩] ∧
      findOverride (setOverride l mid st) mid = some ⟨mid, st⟩) ∧
    (∀ (l : List ManualOverride) (mid mid' : String) (st : LeaveStatus),
      mid' ≠ mid →
      entriesFor (setOverride l mid st) mid' = entriesFor l mid') ∧
    (∀ (l : List ManualOverride) (mid : String),
      entriesFor (clearOverride l mid) mid = [] ∧
      findOverride (clearOverride l mid) mid = none) ∧
    (∀ (l : List ManualOverride) (mid mid' : String),
      mid' ≠ mid →
      entriesFor (clearOverride l mid) mid' = entriesFor l mid') :=
  ⟨entriesFor_applyOps_le_one,
   fun l mid st =>
     ⟨entriesFor_setOverride_self l mid st, findOverride_setOverride_self l mid st⟩,
   fun l mid mid' st h => entriesFor_setOverride_other l mid mid' st h,
   fun l mid =>
     ⟨entriesFor_clearOverride_self l mid, findOverride_clearOverride_self l mid⟩,
   fun l mid mid' h => entriesFor_clearOverride_other l mid mid' h⟩

/-- Witness for C8: a concrete sequence set, set-again, clear on two
members. -/
theorem c8_overrides_unique_witness :
    (entriesFor (applyOps [.setO "mem-001" .ooo, .setO "mem-001" .available,
      .setO "mem-002" .ooo, .clearO "mem-002"]) "mem-001").length ≤ 1 ∧
    entriesFor (setOverride [⟨"mem-002", .ooo⟩] "mem-001" .available) "mem-001"
      = [⟨"mem-001", .available⟩] ∧
    entriesFor (setOverride [⟨"mem-002", .ooo⟩] "mem-001" .available) "mem-002"
      = entriesFor [⟨"mem-002", .ooo⟩] "mem-002" ∧
    entriesFor (clearOverride [⟨"mem-001", .ooo⟩, ⟨"mem-002", .ooo⟩] "mem-001")
      "mem-001" = [] ∧
    entriesFor (clearOverride [⟨"mem-001", .ooo⟩, ⟨"mem-002", .ooo⟩] "mem-001")
      "mem-002" = entriesFor [⟨"mem-001", .ooo⟩, ⟨"mem-002", .ooo⟩] "mem-002" :=
  ⟨c8_overrides_unique.1 _ "mem-001",
   (c8_overrides_unique.2.1 [⟨"mem-002", .ooo⟩] "mem-001" .available).1,
   c8_overrides_unique.2.2.1 [⟨"mem-002", .ooo⟩] "mem-001" "mem-002" .available
     (by decide),
   (c8_overrides_unique.2.2.2.1 [⟨"mem-001", .ooo⟩, ⟨"mem-002", .ooo⟩]
     "mem-001").1,
   c8_overrides_unique.2.2.2.2 [⟨"mem-001", .ooo⟩, ⟨"mem-002", .ooo⟩]
     "mem-001" "mem-002" (by decide)⟩

/-- C4, counterexample to the claim as stated: clearing the override of a
member whose stored raw status is `ooo` leaves the effective status `ooo`
(the raw fallback of `PersonCard.tsx` line 54 and `TeamGrid.tsx` line 35),
not `available` as the claim requires. `clearOverride` (`store/index.ts`
lines 58-61) only filters the entry out and never touches `leaveStatus`. -/
theorem c4_clear_override_counterexample :
    effectiveStatusPersonCard
      (clearOverride [⟨"mem-002", .available⟩] "mem-002") memRawOOO = .ooo ∧
    effectiveLeaveStatus
      (clearOverride [⟨"mem-002", .available⟩] "mem-002") memRawOOO = .ooo ∧
    (LeaveStatus.ooo ≠ .available) := by
  refine ⟨?_, ?_, by decide⟩ <;> rfl

/-- C4 as amended: clearing a member's manual override removes the override
entry (resetting the override flag), and the member's effective status then
falls back to the stored raw leave data (`isOOO` / `dataSources.leaveStatus`
in `PersonCard`, `dataSources.leaveStatus` in `TeamGrid`) — not to an
explicit `available` default. -/
theorem c4_clear_override_amended (overrides : List ManualOverride)
    (m : TeamMember) :
    findOverride (clearOverride overrides m.id) m.id = none ∧
    effectiveStatusPersonCard (clearOverride overrides m.id) m
      = (if m.isOOO then .ooo else m.dataSources.leaveStatus) ∧
    effectiveLeaveStatus (clearOverride overrides m.id) m
      = m.dataSources.leaveStatus := by
  have h := findOverride_clearOverride_self overrides m.id
  exact ⟨h, by rw [effectiveStatusPersonCard, h],
    by rw [effectiveLeaveStatus, h]⟩

/-! Helper lemmas about the suggestion sort. -/

/-- Inserting rearranges nothing but the new element. -/
theorem insertDesc_perm (s : Suggestion) (l : List Suggestion) :
    (insertDesc s l).Perm (s :: l) := by
  induction l with
  | nil => exact List.Perm.refl _
  | cons t ts ih =>
    rw [insertDesc]
    split
    · exact List.Perm.refl _
    · exact (ih.cons t).trans (List.Perm.swap s t ts)

/-- Inserting into a list sorted descending on `skillMatchPct` keeps it
sorted. -/
theorem insertDesc_sorted (s : Suggestion) (l : List Suggestion)
    (h : l.Pairwise (fun a b => b.skillMatchPct ≤ a.skillMatchPct)) :
    (insertDesc s l).Pairwise (fun a b => b.skillMatchPct ≤ a.skillMatchPct) := by
  induction l with
  | nil => simp [insertDesc]
  | cons t ts ih =>
    rw [insertDesc]
    rcases List.pairwise_cons.mp h with ⟨ht, hts⟩
    split
    case isTrue hle =>
      refine List.pairwise_cons.mpr ⟨?_, h⟩
      intro x hx
      rcases List.mem_cons.mp hx with rfl | hx'
      · exact hle
      · exact le_trans (ht x hx') hle
    case isFalse hgt =>
      refine List.pairwise_cons.mpr ⟨?_, ih hts⟩
      intro x hx
      rcases List.mem_cons.mp ((insertDesc_perm s ts).mem_iff.mp hx) with rfl | hx'
      · exact Nat.le_of_lt (Nat.lt_of_not_le hgt)
      · exact ht x hx'

/-- Elements of any one `skillMatchPct` class pass through `insertDesc` in
order: the inserted element lands in front of its own class and the other
classes are untouched. -/
theorem insertDesc_filter (s : Suggestion) (l : List Suggestion) (k : Nat) :
    (insertDesc s l).filter (fun t => t.skillMatchPct == k)
      = if s.skillMatchPct == k
          then s :: l.filter (fun t => t.skillMatchPct == k)
          else l.filter (fun t => t.skillMatchPct == k) := by
  induction l with
  | nil =>
    rw [insertDesc]
    cases hs : (s.skillMatchPct == k) <;> simp [List.filter, hs]
  | cons t ts ih =>
    rw [insertDesc]
    split
    case isTrue hle =>
      cases hs : (s.skillMatchPct == k) <;> simp [List.filter_cons, hs]
    case isFalse hgt =>
      cases hs : (s.skillMatchPct == k) with
      | true =>
        have hsk : s.skillMatchPct = k := by simpa using hs
        have hlt : s.skillMatchPct < t.skillMatchPct := Nat.lt_of_not_le hgt
        have htk : (t.skillMatchPct == k) = false := by
          simp only [beq_eq_false_iff_ne, ne_eq]
          omega
        simp [List.filter_cons, htk, ih, hs]
      | false =>
        cases ht : (t.skillMatchPct == k) <;> simp [List.filter_cons, ht, ih, hs]

/-- The sort is a permutation of its input. -/
theorem sortedSuggestions_perm (l : List Suggestion) :
    (sortedSuggestions l).Perm l := by
  induction l with
  | nil => exact List.Perm.refl _
  | cons s ss ih => exact (insertDesc_perm s _).trans (ih.cons s)

/-- The sort's output is descending on `skillMatchPct`. -/
theorem sortedSuggestions_sorted (l : List Suggestion) :
    (sortedSuggestions l).Pairwise
      (fun a b => b.skillMatchPct ≤ a.skillMatchPct) := by
  induction l with
  | nil => simp [sortedSuggestions]
  | cons s ss ih => exact insertDesc_sorted s _ ih

/-- Stability: within each `skillMatchPct` class, the sort preserves the
input order. -/
theorem sortedSuggestions_stable_filter (l : List Suggestion) (k : Nat) :
    (sortedSuggestions l).filter (fun t => t.skillMatchPct == k)
      = l.filter (fun t => t.skillMatchPct == k) := by
  induction l with
  | nil => rfl
  | cons s ss ih =>
    rw [sortedSuggestions, insertDesc_filter, List.filter_cons]
    cases hs : (s.skillMatchPct == k) <;> simp [hs, ih]

/-- C1, counterexample to the claim as stated: the code's comparator
(`SummaryBar.tsx` 317-319, `SuggestionPanel.tsx` 190-192) looks only at
`skillMatchPct`, so on two candidates with equal skill match the heavier
loaded, larger-id candidate `m2` (workload 90) stays in front of `m1`
(workload 10), while the claimed order requires `m1` strictly before
`m2` (ascending workload on skill ties). -/
theorem c1_ranking_counterexample :
    sortedSuggestions [⟨"m2", 80, 90, "r"⟩, ⟨"m1", 80, 10, "r"⟩]
      = [⟨"m2", 80, 90, "r"⟩, ⟨"m1", 80, 10, "r"⟩] ∧
    specRankBefore ⟨"m1", 80, 10, "r"⟩ ⟨"m2", 80, 90, "r"⟩ := by
  exact ⟨rfl, Or.inr ⟨rfl, Or.inl (by norm_num)⟩⟩

/-- C1 as amended: the ranking sorts only by `skillMatchPct` descending
with a stable sort — the result is a permutation of the scored candidates,
descending on `skillMatchPct`, and candidates with equal `skillMatchPct`
keep their input order (no workload or id tie-break). Being a pure function
of the input list, re-running it on the same scored candidates always
produces the same order. -/
theorem c1_ranking_amended (l : List Suggestion) :
    (sortedSuggestions l).Perm l ∧
    (sortedSuggestions l).Pairwise
      (fun a b => b.skillMatchPct ≤ a.skillMatchPct) ∧
    (∀ k, (sortedSuggestions l).filter (fun t => t.skillMatchPct == k)
      = l.filter (fun t => t.skillMatchPct == k)) :=
  ⟨sortedSuggestions_perm l, sortedSuggestions_sorted l,
   fun k => sortedSuggestions_stable_filter l k⟩

/-! Helper lemmas for the summary counters. -/

/-- Counting a list by the three leave statuses covers every element
exactly once. -/
theorem length_filter_status {α : Type} (l : List α) (f : α → LeaveStatus) :
    (l.filter (fun a => f a == .ooo)).length
      + (l.filter (fun a => f a == .partialStatus)).length
      + (l.filter (fun a => f a == .available)).length = l.length := by
  induction l with
  | nil => rfl
  | cons a as ih =>
    simp only [List.filter_cons]
    cases h : f a <;> simp [h] <;> omega

/-- Filtering by a conjunction keeps no more elements than filtering by one
conjunct. -/
theorem length_filter_and_le {α : Type} (l : List α) (p q : α → Bool) :
    (l.filter (fun a => p a && q a)).length ≤ (l.filter q).length := by
  induction l with
  | nil => simp
  | cons a as ih =>
    simp only [List.filter_cons]
    cases hp : p a <;> cases hq : q a <;> simp [hp, hq] <;> omega

/-- C10: part_008's `SummaryBar` counters partition the roster — People Out
+ Partially Available + Fully Available equals the number of members, each
member falling under exactly one effective status — and Critical Tasks at
Risk never exceeds Unresolved Reassignments, because the critical filter
adds a priority conjunct to the not-covered filter. -/
theorem c10_summary_partition (members : List TeamMember) (tasks : List Task)
    (overrides : List ManualOverride)
    (taskStatusOverrides : String → Option TaskStatus) :
    (summaryCounts members tasks overrides taskStatusOverrides).ooo
      + (summaryCounts members tasks overrides taskStatusOverrides).partialCount
      + (summaryCounts members tasks overrides taskStatusOverrides).fullyAvailable
      = members.length ∧
    (summaryCounts members tasks overrides taskStatusOverrides).criticalAtRisk
      ≤ (summaryCounts members tasks overrides taskStatusOverrides).unresolved := by
  constructor
  · exact length_filter_status members
      (fun m => effectiveMemberStatus overrides m.id m.dataSources.leaveStatus)
  · exact length_filter_and_le tasks
      (fun t => t.priority == .P0 || t.priority == .P1)
      (fun t => effectiveTaskStatus taskStatusOverrides t.id t.status != .covered)

/-- C9: `apiFetch` errors exactly when the response has `ok = false`, with
the status code (and status text and body) in the error message; on a
successful 204 it returns `undefined` (`none`), and on any other successful
response the parsed JSON body. -/
theorem c9_apifetch_contract {α : Type} (res : ApiResponse α) :
    (res.ok = false →
      apiFetch res = .error ("API " ++ toString res.status ++ " "
        ++ res.statusText ++ ": " ++ res.bodyText)) ∧
    (res.ok = true → res.status = 204 → apiFetch res = .ok none) ∧
    (res.ok = true → res.status ≠ 204 → apiFetch res = .ok (some res.json)) ∧
    ((∃ e, apiFetch res = .error e) ↔ res.ok = false) := by
  obtain ⟨ok, status, statusText, bodyText, json⟩ := res
  cases ok
  · simp [apiFetch]
  · by_cases h204 : status = 204 <;> simp [apiFetch, h204]

/-- Witness for C9 at three concrete responses: a 500 failure, a 204
success, and a 200 success carrying the JSON value 7. -/
theorem c9_apifetch_contract_witness :
    apiFetch ⟨false, 500, "Internal Server Error", "boom", (0 : Nat)⟩
      = .error ("API " ++ toString (500 : Nat) ++ " "
        ++ "Internal Server Error" ++ ": " ++ "boom") ∧
    apiFetch ⟨true, 204, "No Content", "", (0 : Nat)⟩ = .ok none ∧
    apiFetch ⟨true, 200, "OK", "body", (7 : Nat)⟩ = .ok (some 7) :=
  ⟨(c9_apifetch_contract ⟨false, 500, "Internal Server Error", "boom", 0⟩).1 rfl,
   (c9_apifetch_contract ⟨true, 204, "No Content", "", 0⟩).2.1 rfl rfl,
   (c9_apifetch_contract ⟨true, 200, "OK", "body", 7⟩).2.2.1 rfl (by decide)⟩

/-- C6: reassigning a task to a member sets its status to `covered`, its
assignee to that member, and clears its suggestion list (spec-modelled
backend route), and the frontend's optimistic update (`handleReassign`,
`SummaryBar.tsx` 287-295) makes the task's effective status `covered` in
the store. -/
theorem c6_reassign_covered (t : Task) (memberId : String)
    (taskStatusOverrides : String → Option TaskStatus) :
    (reassignTaskBackend t memberId).status = .covered ∧
    (reassignTaskBackend t memberId).assigneeId = memberId ∧
    (reassignTaskBackend t memberId).suggestions = [] ∧
    effectiveTaskStatus (setTaskStatus taskStatusOverrides t.id .covered)
      t.id t.status = .covered := by
  refine ⟨rfl, rfl, rfl, ?_⟩
  simp [effectiveTaskStatus, setTaskStatus]

/-- C7: whenever the selected task is loaded, its effective status is not
`covered`, and its suggestion list is empty, the panel renders a
scoring-in-progress block (the pipeline banner or the scoring placeholder,
both with scoring text and a retry/refresh affordance), never an error
state, no covered panel, and no suggestion list; the render is a pure
function of the store, so it leaves the task's status untouched. -/
theorem c7_scoring_in_progress (tid : String) (tasks : List Task)
    (taskStatusOverrides : String → Option TaskStatus)
    (pipelineRunning : String → Bool) (task : Task) (r : PanelRender)
    (hfind : tasks.find? (fun t => t.id = tid) = some task)
    (hnc : effectiveTaskStatus taskStatusOverrides tid task.status ≠ .covered)
    (hempty : task.suggestions = [])
    (hrender : suggestionPanelView (some tid) tasks taskStatusOverrides
      pipelineRunning = .render r) :
    showsScoringText r = true ∧ hasRetryAffordance r = true ∧
    r.showsErrorState = false ∧ r.showsCoveredPanel = false ∧
    r.showsSuggestionList = false := by
  have hcov : (effectiveTaskStatus taskStatusOverrides tid task.status
      == TaskStatus.covered) = false := beq_false_of_ne hnc
  rw [suggestionPanelView] at hrender
  rw [hfind] at hrender
  simp only [hempty, sortedSuggestions, List.isEmpty_nil, hcov,
    Bool.false_eq_true, Bool.not_false, Bool.and_true, Bool.true_and,
    Bool.and_false, PanelView.render.injEq] at hrender
  subst hrender
  cases hr : pipelineRunning tid <;>
    simp [showsScoringText, hasRetryAffordance, hr]

/-- Witness for C7: one unassigned task with no suggestions, pipeline flag
off — the scoring placeholder renders. -/
theorem c7_scoring_in_progress_witness :
    showsScoringText ⟨false, false, true, false, false⟩ = true ∧
    hasRetryAffordance ⟨false, false, true, false, false⟩ = true ∧
    PanelRender.showsErrorState ⟨false, false, true, false, false⟩ = false ∧
    PanelRender.showsCoveredPanel ⟨false, false, true, false, false⟩ = false ∧
    PanelRender.showsSuggestionList ⟨false, false, true, false, false⟩ = false :=
  c7_scoring_in_progress "t-1" [taskNoSuggestions] (fun _ => none)
    (fun _ => false) taskNoSuggestions ⟨false, false, true, false, false⟩
    (by decide) (by decide) rfl (by decide)

/-! Helper lemmas for the spec-modelled suggestion engine and ingestor. -/

/-- The ranking insertion rearranges nothing but the new element. -/
theorem rankInsert_perm (s : Suggestion) (l : List Suggestion) :
    (rankInsert s l).Perm (s :: l) := by
  induction l with
  | nil => exact List.Perm.refl _
  | cons t ts ih =>
    rw [rankInsert]
    split
    · exact List.Perm.refl _
    · exact (ih.cons t).trans (List.Perm.swap s t ts)

/-- The spec-modelled ranking is a permutation of its input. -/
theorem rankSuggestions_perm (l : List Suggestion) :
    (rankSuggestions l).Perm l := by
  induction l with
  | nil => exact List.Perm.refl _
  | cons s ss ih => exact (rankInsert_perm s _).trans (ih.cons s)

/-- C3: the spec-modelled suggestion engine never suggests an OOO member —
every suggestion's `memberId` belongs to some roster member whose effective
status is not `ooo`, the number of suggestions equals the number of
non-OOO roster members, and on a concrete roster of three candidates with
one OOO it produces exactly two suggestions, neither naming the OOO
member. -/
theorem c3_ooo_filtered (roster : List TeamMember)
    (overrides : List ManualOverride) (oracle : TeamMember → Score) :
    ((suggest roster overrides oracle).length
      = (roster.filter
          (fun m => effectiveLeaveStatus overrides m != .ooo)).length) ∧
    ((suggest roster overrides oracle).all (fun s =>
      roster.any (fun m =>
        m.id == s.memberId && (effectiveLeaveStatus overrides m != .ooo)))
      = true) ∧
    ((suggest [memRawAvailable, memRawAvailable2, memRawOOO] [] oracleStub).length
        = 2 ∧
      (suggest [memRawAvailable, memRawAvailable2, memRawOOO] []
        oracleStub).all (fun s => s.memberId != "mem-002") = true) := by
  refine ⟨?_, ?_, by decide⟩
  · rw [suggest, (rankSuggestions_perm _).length_eq, List.length_map]
  · rw [List.all_eq_true]
    intro s hs
    rw [suggest] at hs
    have hmem := (rankSuggestions_perm _).mem_iff.mp hs
    rw [List.mem_map] at hmem
    obtain ⟨m, hm, rfl⟩ := hmem
    rw [List.mem_filter] at hm
    rw [List.any_eq_true]
    exact ⟨m, hm.1, by simp [hm.2]⟩

/-- One ingestor step preserves the counter invariant: a detected signal
bumps `detected` and exactly one of `applied` or `skipped`, and bumps
`pending` only together with `applied`. -/
theorem ingestOne_inv (matcher : String → Option RosterEntry) (today : Int)
    (acc : SyncResult) (sig : Option TimeOffSignal) (h : SyncInv acc) :
    SyncInv (ingestOne matcher today acc sig) := by
  obtain ⟨h1, h2⟩ := h
  rcases sig with _ | s
  · exact ⟨h1, h2⟩
  · rw [ingestOne]
    rcases hm : matcher s.personName with _ | member
    · exact ⟨by dsimp; omega, by dsimp; omega⟩
    · dsimp only
      by_cases hov : member.manuallyOverridden = true
      · rw [if_pos hov]
        exact ⟨by dsimp; omega, by dsimp; omega⟩
      · rw [if_neg hov]
        by_cases hend : s.endDate < today
        · rw [if_pos hend]
          exact ⟨by dsimp; omega, by dsimp; omega⟩
        · rw [if_neg hend]
          by_cases hstart : s.startDate ≤ today
          · rw [if_pos hstart]
            exact ⟨by dsimp; omega, by dsimp; omega⟩
          · rw [if_neg hstart]
            exact ⟨by dsimp; omega, by dsimp; omega⟩

/-- Folding the ingestor over any message list preserves the counter
invariant. -/
theorem ingest_foldl_inv (classify : Message → Option TimeOffSignal)
    (matcher : String → Option RosterEntry) (today : Int)
    (msgs : List Message) :
    ∀ acc, SyncInv acc →
      SyncInv (msgs.foldl
        (fun a m => ingestOne matcher today a (classify m)) acc) := by
  induction msgs with
  | nil => exact fun acc h => h
  | cons m ms ih =>
    intro acc h
    rw [List.foldl_cons]
    exact ih _ (ingestOne_inv matcher today acc (classify m) h)

/-- C5: every ingestor result satisfies `detected = applied + skipped` and
`pending ≤ applied`; and a detected message naming a person the matcher
does not recognise increments `skipped` (and `detected`) while leaving
`applied`, `pending` and `changes` untouched. The ingestor is a total
function, so no message can make it throw. -/
theorem c5_sync_counts (classify : Message → Option TimeOffSignal)
    (matcher : String → Option RosterEntry) (today : Int)
    (msgs : List Message) :
    ((ingest classify matcher today msgs).detected
      = (ingest classify matcher today msgs).applied
        + (ingest classify matcher today msgs).skipped) ∧
    ((ingest classify matcher today msgs).pending
      ≤ (ingest classify matcher today msgs).applied) ∧
    (∀ (m : Message) (sig : TimeOffSignal),
      classify m = some sig → matcher sig.personName = none →
      ingest classify matcher today (msgs ++ [m])
        = { ingest classify matcher today msgs with
            detected := (ingest classify matcher today msgs).detected + 1,
            skipped := (ingest classify matcher today msgs).skipped + 1 }) := by
  have hinv := ingest_foldl_inv classify matcher today msgs emptySyncResult
    ⟨rfl, Nat.le_refl 0⟩
  refine ⟨hinv.1, hinv.2, ?_⟩
  intro m sig hc hm
  rw [ingest, List.foldl_append, List.foldl_cons, List.foldl_nil, hc,
    ingestOne, hm]
  rw [ingest]

/-- Witness for C5: a single PTO message naming the unknown person Zed,
against a matcher that recognises nobody — one detected, one skipped,
nothing applied. -/
theorem c5_sync_counts_witness :
    ((ingest classifyStub matcherNone 4 [⟨"PTO", "u1"⟩]).detected
      = (ingest classifyStub matcherNone 4 [⟨"PTO", "u1"⟩]).applied
        + (ingest classifyStub matcherNone 4 [⟨"PTO", "u1"⟩]).skipped) ∧
    ingest classifyStub matcherNone 4 ([] ++ [⟨"PTO", "u1"⟩])
      = { ingest classifyStub matcherNone 4 [] with
          detected := (ingest classifyStub matcherNone 4 []).detected + 1,
          skipped := (ingest classifyStub matcherNone 4 []).skipped + 1 } :=
  ⟨(c5_sync_counts classifyStub matcherNone 4 [⟨"PTO", "u1"⟩]).1,
   (c5_sync_counts classifyStub matcherNone 4 []).2.2 ⟨"PTO", "u1"⟩
     ⟨"Zed", 5, 6, "vacation"⟩ (by decide) rfl⟩

end CoverageIQ
